import Mathlib

/-!
Verification of the self-correcting natural-language-to-SQL core of
`streamlit_app.py`.

The effectful parts of the program (the memoized database connection, the
pandas `read_sql_query` call, the Gemini text-generation calls) are modelled
by an explicit environment: the connection is an `Option Unit` (the memoized
`get_db_connection` result, `none` when `psycopg2.connect` raised), the
backend is a function from the execution-call index and the SQL text to
`Except String RowSet` (`Except.error e` models a raised exception with
message `str(e)`), and the generation backend is a function from the
generation-call index to `Option String` (`none` models a raised exception in
`model.generate_content`, `some t` the raw response text `response.text`).
All control flow of the program is translated statement by statement.
-/

namespace SQLAssistant

/-- A row of a result set: a mapping from column name to value
(`pd.read_sql_query` result row). -/
abbrev Row : Type := List (String × String)

/-- An ordered result set, as returned by a successful execution. -/
abbrev RowSet : Type := List Row

/-- `MAX_ATTEMPTS = 3` (line 18 of `streamlit_app.py`). -/
def MAX_ATTEMPTS : Nat := 3

/-! ## SQL Extractor (`extract_sql_from_response`, lines 128-136)

The Python code runs
`re.search(r"` three backticks `sql\s*(.*?)\s*` three backticks `", response_text, re.IGNORECASE | re.DOTALL)`
and returns `match.group(1).strip()` when the search succeeds, else
`response_text.strip()`.

Because `group(1).strip()` erases whatever whitespace the two `\s*` parts
absorbed, the returned string equals: take the leftmost (case-insensitive)
occurrence of the six characters of the opening fence from which the whole
pattern can match (i.e. some closing triple-backtick occurs at or after the
end of the opening fence), take the characters strictly between the end of
that opening fence and the first subsequent closing triple backtick, and
strip whitespace from both ends.  The embedding below implements exactly
that characterization; case folding is modelled on ASCII (`Char.toLower`),
and Python's whitespace set is modelled by its ASCII members. -/

/-- The backtick character (U+0060). -/
def backtick : Char := Char.ofNat 96

/-- The opening fence literal of the regex: three backticks then `sql`. -/
def fenceOpenPat : List Char := [backtick, backtick, backtick, 's', 'q', 'l']

/-- The closing fence literal of the regex: three backticks. -/
def fenceClosePat : List Char := [backtick, backtick, backtick]

/-- Python whitespace (`\s`, `str.strip`), restricted to ASCII. -/
def pyIsSpace (c : Char) : Bool :=
  c == ' ' || c == '\t' || c == '\n' || c == '\r' ||
  c == Char.ofNat 11 || c == Char.ofNat 12

/-- `str.strip()` on a character list: drop whitespace from both ends. -/
def stripChars (cs : List Char) : List Char :=
  (((cs.dropWhile pyIsSpace).reverse).dropWhile pyIsSpace).reverse

/-- Does the text start with the pattern, comparing case-insensitively
(`re.IGNORECASE`)? -/
def matchesCI : List Char → List Char → Bool
  | [], _ => true
  | _ :: _, [] => false
  | p :: ps, c :: cs => (c.toLower == p.toLower) && matchesCI ps cs

/-- The characters strictly before the first closing fence, if a closing
fence occurs in the text. -/
def splitAtClose : List Char → Option (List Char)
  | [] => none
  | c :: cs =>
    if matchesCI fenceClosePat (c :: cs) then some []
    else
      match splitAtClose cs with
      | some interior => some (c :: interior)
      | none => none

/-- The interior of the leftmost matchable SQL fence: scan for the first
(case-insensitive) occurrence of the opening fence that is followed,
somewhere, by a closing fence, and return the characters between them. -/
def findSqlFence : List Char → Option (List Char)
  | [] => none
  | c :: cs =>
    if matchesCI fenceOpenPat (c :: cs) then
      match splitAtClose (cs.drop 5) with
      | some interior => some interior
      | none => findSqlFence cs
    else findSqlFence cs

/-- `extract_sql_from_response` (lines 128-136): the trimmed interior of the
fenced SQL block when present, else the trimmed whole input. -/
def extract_sql_from_response (response_text : String) : String :=
  match findSqlFence response_text.data with
  | some interior => String.mk (stripChars interior)
  | none => String.mk (stripChars response_text.data)

/-- Specification-level scan: does the text contain a closing fence
anywhere? -/
def containsCloseFence : List Char → Bool
  | [] => false
  | c :: cs => matchesCI fenceClosePat (c :: cs) || containsCloseFence cs

/-- Specification-level scan: does the text contain a (case-insensitive)
opening SQL fence that is later closed? -/
def hasSqlFence : List Char → Bool
  | [] => false
  | c :: cs =>
    (matchesCI fenceOpenPat (c :: cs) && containsCloseFence (cs.drop 5))
      || hasSqlFence cs

/-! ## Query Executor (`run_query`, lines 107-117)

`conn` is the memoized `get_db_connection()` result; `backend sql` is the
outcome of `pd.read_sql_query(sql, conn)` (`Except.error e` models a raised
exception with message `str(e)`). -/

/-- `run_query` (lines 107-117): `(None, "DB_CONNECTION_ERROR")` when the
connection is unavailable, `(df, None)` on success, `(None, str(e))` when
execution raises. -/
def run_query (conn : Option Unit) (backend : String → Except String RowSet)
    (sql : String) : Option RowSet × Option String :=
  match conn with
  | none => (none, some "DB_CONNECTION_ERROR")
  | some _ =>
    match backend sql with
    | Except.ok df => (some df, none)
    | Except.error e => (none, some e)

/-! ## Query Generator and the Self-Correction Controller

`execute_self_correcting_query` (lines 184-229) drives the bounded retry
loop.  The environment supplies the behaviour of the external world: the
memoized connection, the per-call backend outcomes, and the per-call raw
Gemini responses. -/

/-- The external world of one correction session: `conn` is the memoized
`get_db_connection()` result; `backend e sql` is the outcome of the `e`-th
`pd.read_sql_query` call (0-indexed); `gen g` is the raw response text of
the `g`-th `model.generate_content` call (0-indexed), `none` when the API
call raised. -/
structure Env where
  conn : Option Unit
  backend : Nat → String → Except String RowSet
  gen : Nat → Option String

/-- `generate_sql_with_gpt` (lines 138-179): invoke the model (the `g`-th
generation call) and pass the raw response through the extractor; `none`
when the API call raised (the prompt text itself does not affect the
session's control flow and is not modelled). -/
def generate_sql_with_gpt (env : Env) (g : Nat) : Option String :=
  match env.gen g with
  | none => none
  | some t => some (extract_sql_from_response t)

/-- One attempt of the loop (ghost log entry): the SQL text executed and the
pair `run_query` returned for it. -/
structure Attempt where
  sql : String
  rowSet : Option RowSet
  error : Option String
deriving Repr, DecidableEq

/-- The observable outcome of one correction session, together with ghost
instrumentation: the number of generation and execution calls made, the
final value of the `attempt` counter, and the attempt log in
newest-first order. -/
structure Outcome where
  rowSet : Option RowSet
  finalSQL : Option String
  genCalls : Nat
  execCalls : Nat
  lastAttempt : Nat
  attemptsRev : List Attempt
deriving Repr, DecidableEq

/-- The `while attempt <= MAX_ATTEMPTS` loop of
`execute_self_correcting_query` (lines 195-229).  `g` and `e` count the
generation and execution calls already made; `log` is the attempt log so
far, newest first.  The fuel argument bounds the number of iterations; the
fuel-exhaustion branch returns exactly what the loop-exit line 229 returns,
and `scqLoop_fuel_irrelevant` below shows the branch is never taken once
`MAX_ATTEMPTS + 1 - attempt` fuel is available. -/
def scqLoop (env : Env) : Nat → Nat → String → Nat → Nat → List Attempt → Outcome
  | 0, attempt, sql, g, e, log => ⟨none, some sql, g, e, attempt, log⟩
  | fuel + 1, attempt, sql, g, e, log =>
    if MAX_ATTEMPTS < attempt then ⟨none, some sql, g, e, attempt, log⟩
    else
      match run_query env.conn (env.backend e) sql with
      | (df, none) =>
        ⟨df, some sql, g, e + 1, attempt, ⟨sql, df, none⟩ :: log⟩
      | (df, some err) =>
        if attempt == MAX_ATTEMPTS then
          ⟨none, some sql, g, e + 1, attempt, ⟨sql, df, some err⟩ :: log⟩
        else
          match generate_sql_with_gpt env g with
          | none =>
            ⟨none, some sql, g + 1, e + 1, attempt + 1, ⟨sql, df, some err⟩ :: log⟩
          | some ns =>
            if ns != "" && ns != sql then
              scqLoop env fuel (attempt + 1) ns (g + 1) (e + 1)
                (⟨sql, df, some err⟩ :: log)
            else
              ⟨none, some sql, g + 1, e + 1, attempt + 1, ⟨sql, df, some err⟩ :: log⟩

/-- `execute_self_correcting_query` (lines 184-229), with an explicit fuel
bound for the loop: generate the initial query (`attempt = 1`); if it is
`None` or empty (`if not current_sql`), return `(None, None)`; otherwise
enter the loop. -/
def execute_scq_fuel (env : Env) (fuel : Nat) : Outcome :=
  match generate_sql_with_gpt env 0 with
  | none => ⟨none, none, 1, 0, 1, []⟩
  | some s =>
    if s == "" then ⟨none, none, 1, 0, 1, []⟩
    else scqLoop env fuel 1 s 1 0 []

/-- `execute_self_correcting_query` (lines 184-229): the loop starts at
`attempt = 1` and can iterate at most `MAX_ATTEMPTS` times. -/
def execute_self_correcting_query (env : Env) : Outcome :=
  execute_scq_fuel env MAX_ATTEMPTS

/-! ## The surrounding application (`main`, lines 305-382) -/

/-- One entry of `st.session_state.query_history` (lines 318-319 and
327-328): question, final SQL, row count, success flag. -/
structure HistoryEntry where
  question : String
  sql : Option String
  rows : Nat
  success : Bool
deriving Repr, DecidableEq

/-- The history update `main` performs after a session terminates
(lines 316-329): append one entry, with `success` and `rows` determined by
whether the session returned a result set. -/
def recordSession (history : List HistoryEntry) (question : String)
    (o : Outcome) : List HistoryEntry :=
  match o.rowSet with
  | some df => history ++ [⟨question, o.finalSQL, df.length, true⟩]
  | none => history ++ [⟨question, o.finalSQL, 0, false⟩]

/-- Python `history[-n:]`: the last `n` entries (all of them when there are
fewer than `n`). -/
def lastN (n : Nat) (l : List HistoryEntry) : List HistoryEntry :=
  l.drop (l.length - n)

/-- The history the UI renders (line 367):
`reversed(st.session_state.query_history[-5:])`. -/
def displayedHistory (history : List HistoryEntry) : List HistoryEntry :=
  (lastN 5 history).reverse

/-! ## Concrete environments used as test vectors -/

/-- A healthy world: the connection is up, every query succeeds with one
row, the model always answers `SELECT 1`. -/
def envSuccess : Env :=
  { conn := some ()
  , backend := fun _ _ => Except.ok [[("n", "42")]]
  , gen := fun _ => some "SELECT 1" }

/-- The backend connection is down from the start; the model produces a
distinct non-empty query on every call (`q`, `qq`, `qqq`, ...). -/
def envConnDown : Env :=
  { conn := none
  , backend := fun _ _ => Except.error "unused"
  , gen := fun k => some (String.mk (List.replicate (k + 1) 'q')) }

/-- The connection is up but every execution raises, with a distinct error
message each time; the model produces a distinct non-empty query on every
call. -/
def envAllFail : Env :=
  { conn := some ()
  , backend := fun k _ => Except.error (String.mk (List.replicate (k + 1) 'e'))
  , gen := fun k => some (String.mk (List.replicate (k + 1) 'q')) }

/-- Every execution fails and the second correction repeats the first one
verbatim (`q`, `qq`, `qq`, ...): the no-progress exit fires. -/
def envStuck : Env :=
  { conn := some ()
  , backend := fun _ _ => Except.error "err"
  , gen := fun k => some (String.mk (List.replicate (Nat.min k 1 + 1) 'q')) }

/-- The outcome of a session whose initial generation failed. -/
def emptyOutcome : Outcome := ⟨none, none, 1, 0, 1, []⟩

/-- The stored history after `n` terminated sessions. -/
def histAfter : Nat → List HistoryEntry
  | 0 => []
  | n + 1 => recordSession (histAfter n) "q" emptyOutcome

/-! ## Executor shape lemmas -/

theorem run_query_shape_ok {conn : Option Unit}
    {backend : String → Except String RowSet} {sql : String}
    {df : Option RowSet} (h : run_query conn backend sql = (df, none)) :
    ∃ rows, df = some rows := by
  unfold run_query at h
  cases conn with
  | none => simp at h
  | some u =>
    cases hb : backend sql with
    | ok rows =>
      rw [hb] at h
      simp only [Prod.mk.injEq] at h
      exact ⟨rows, h.1.symm⟩
    | error e => rw [hb] at h; simp at h

theorem run_query_shape_err {conn : Option Unit}
    {backend : String → Except String RowSet} {sql : String}
    {df : Option RowSet} {m : String}
    (h : run_query conn backend sql = (df, some m)) : df = none := by
  unfold run_query at h
  cases conn with
  | none =>
    simp only [Prod.mk.injEq] at h
    exact h.1.symm
  | some u =>
    cases hb : backend sql with
    | ok rows => rw [hb] at h; simp at h
    | error e =>
      rw [hb] at h
      simp only [Prod.mk.injEq] at h
      exact h.1.symm

/-! ## Controller invariants -/

theorem scqLoop_succ_fuel (env : Env) :
    ∀ (fuel attempt : Nat) (sql : String) (g e : Nat) (log : List Attempt),
      MAX_ATTEMPTS + 1 ≤ fuel + attempt →
      scqLoop env (fuel + 1) attempt sql g e log
        = scqLoop env fuel attempt sql g e log := by
  intro fuel
  induction fuel with
  | zero =>
    intro attempt sql g e log h
    have hlt : MAX_ATTEMPTS < attempt := by omega
    simp only [scqLoop, if_pos hlt]
  | succ f ih =>
    intro attempt sql g e log h
    by_cases hlt : MAX_ATTEMPTS < attempt
    · simp only [scqLoop, if_pos hlt]
    · simp only [scqLoop, if_neg hlt]
      rcases hr : run_query env.conn (env.backend e) sql with ⟨df, err⟩
      cases err with
      | none => simp only [hr]
      | some err =>
        simp only [hr]
        by_cases hA : attempt = MAX_ATTEMPTS
        · simp [hA]
        · have hA' : (attempt == MAX_ATTEMPTS) = false := by
            simp [hA]
          simp only [hA', Bool.false_eq_true, if_false]
          cases hg : generate_sql_with_gpt env g with
          | none => rfl
          | some ns =>
            by_cases hp : (ns != "" && ns != sql) = true
            · simp only [hp, if_true]
              exact ih (attempt + 1) ns (g + 1) (e + 1) _ (by omega)
            · simp only [Bool.not_eq_true] at hp
              simp only [hp, Bool.false_eq_true, if_false]

theorem scqLoop_fuel_add (env : Env) (k : Nat) :
    ∀ (fuel attempt : Nat) (sql : String) (g e : Nat) (log : List Attempt),
      MAX_ATTEMPTS + 1 ≤ fuel + attempt →
      scqLoop env (fuel + k) attempt sql g e log
        = scqLoop env fuel attempt sql g e log := by
  induction k with
  | zero => intro fuel attempt sql g e log _; rfl
  | succ n ih =>
    intro fuel attempt sql g e log h
    have h1 : fuel + (n + 1) = (fuel + n) + 1 := by omega
    rw [h1, scqLoop_succ_fuel env (fuel + n) attempt sql g e log (by omega)]
    exact ih fuel attempt sql g e log h

/-- Master invariant of the correction loop: it performs at least one
execution; all attempts but the most recent failed; the most recent attempt
determines the returned pair; call counts and the attempt counter are
bounded by `MAX_ATTEMPTS`. -/
theorem scqLoop_spec (env : Env) :
    ∀ (fuel attempt : Nat) (sql : String) (g e : Nat) (log : List Attempt),
      attempt ≤ MAX_ATTEMPTS → MAX_ATTEMPTS + 1 ≤ fuel + attempt →
      ∃ fin older,
        (scqLoop env fuel attempt sql g e log).attemptsRev
            = fin :: (older ++ log) ∧
        (scqLoop env fuel attempt sql g e log).execCalls
            = e + older.length + 1 ∧
        (scqLoop env fuel attempt sql g e log).finalSQL = some fin.sql ∧
        (scqLoop env fuel attempt sql g e log).genCalls + attempt
            ≤ g + MAX_ATTEMPTS ∧
        (scqLoop env fuel attempt sql g e log).lastAttempt ≤ MAX_ATTEMPTS ∧
        older.length + attempt ≤ MAX_ATTEMPTS ∧
        (∀ a ∈ older, a.error ≠ none ∧ a.rowSet = none) ∧
        fin.rowSet.isSome = fin.error.isNone ∧
        (fin.error = none →
          (scqLoop env fuel attempt sql g e log).rowSet = fin.rowSet ∧
          (scqLoop env fuel attempt sql g e log).genCalls = g + older.length ∧
          (scqLoop env fuel attempt sql g e log).lastAttempt
              = attempt + older.length) ∧
        (fin.error ≠ none →
          (scqLoop env fuel attempt sql g e log).rowSet = none) := by
  intro fuel
  induction fuel with
  | zero =>
    intro attempt sql g e log h1 h2
    omega
  | succ f ih =>
    intro attempt sql g e log h1 h2
    have hlt : ¬ MAX_ATTEMPTS < attempt := by omega
    rcases hr : run_query env.conn (env.backend e) sql with ⟨df, err⟩
    cases err with
    | none =>
      have hstep : scqLoop env (f + 1) attempt sql g e log
          = ⟨df, some sql, g, e + 1, attempt, ⟨sql, df, none⟩ :: log⟩ := by
        simp only [scqLoop, if_neg hlt, hr]
      rw [hstep]
      obtain ⟨rows, hrows⟩ := run_query_shape_ok hr
      refine ⟨⟨sql, df, none⟩, [], rfl, by simp, rfl, by dsimp only; omega,
        by dsimp only; omega, by simp; omega, by simp, ?_, ?_, ?_⟩
      · simp [hrows]
      · intro _; exact ⟨rfl, by simp, by simp⟩
      · intro hcon; exact absurd rfl hcon
    | some err =>
      have hdf : df = none := run_query_shape_err hr
      by_cases hA : attempt = MAX_ATTEMPTS
      · have hstep : scqLoop env (f + 1) attempt sql g e log
            = ⟨none, some sql, g, e + 1, attempt, ⟨sql, df, some err⟩ :: log⟩ := by
          have hA2 : (attempt == MAX_ATTEMPTS) = true := by simp [hA]
          simp only [scqLoop, if_neg hlt, hr, hA2, if_true]
        rw [hstep]
        refine ⟨⟨sql, df, some err⟩, [], rfl, by simp, rfl, by dsimp only; omega,
          by dsimp only; omega, by simp; omega, by simp, by simp [hdf], ?_, ?_⟩
        · intro hcon; simp at hcon
        · intro _; rfl
      · have hA' : (attempt == MAX_ATTEMPTS) = false := by simp [hA]
        cases hg : generate_sql_with_gpt env g with
        | none =>
          have hstep : scqLoop env (f + 1) attempt sql g e log
              = ⟨none, some sql, g + 1, e + 1, attempt + 1,
                  ⟨sql, df, some err⟩ :: log⟩ := by
            simp only [scqLoop, if_neg hlt, hr, hA', Bool.false_eq_true,
              if_false, hg]
          rw [hstep]
          refine ⟨⟨sql, df, some err⟩, [], rfl, by simp, rfl,
            by dsimp only; omega, by dsimp only; omega, by simp; omega,
            by simp, by simp [hdf], ?_, ?_⟩
          · intro hcon; simp at hcon
          · intro _; rfl
        | some ns =>
          by_cases hp : (ns != "" && ns != sql) = true
          · have hstep : scqLoop env (f + 1) attempt sql g e log
                = scqLoop env f (attempt + 1) ns (g + 1) (e + 1)
                    (⟨sql, df, some err⟩ :: log) := by
              simp only [scqLoop, if_neg hlt, hr, hA', Bool.false_eq_true,
                if_false, hg, hp, if_true]
            rw [hstep]
            obtain ⟨fin, older', c1, c2, c3, c4, c5, c6, c7, c8, c9, c10⟩ :=
              ih (attempt + 1) ns (g + 1) (e + 1)
                (⟨sql, df, some err⟩ :: log) (by omega) (by omega)
            refine ⟨fin, older' ++ [⟨sql, df, some err⟩], ?_, ?_, c3, by omega,
              c5, by simp; omega, ?_, c8, ?_, c10⟩
            · rw [c1]; simp
            · rw [c2]; simp; omega
            · intro a ha
              rcases List.mem_append.mp ha with ha' | ha'
              · exact c7 a ha'
              · rcases List.mem_singleton.mp ha' with rfl
                exact ⟨by simp, hdf⟩
            · intro hfin
              obtain ⟨d1, d2, d3⟩ := c9 hfin
              exact ⟨d1, by rw [d2]; simp; omega, by rw [d3]; simp; omega⟩
          · simp only [Bool.not_eq_true] at hp
            have hstep : scqLoop env (f + 1) attempt sql g e log
                = ⟨none, some sql, g + 1, e + 1, attempt + 1,
                    ⟨sql, df, some err⟩ :: log⟩ := by
              simp only [scqLoop, if_neg hlt, hr, hA', Bool.false_eq_true,
                if_false, hg, hp]
            rw [hstep]
            refine ⟨⟨sql, df, some err⟩, [], rfl, by simp, rfl,
              by dsimp only; omega, by dsimp only; omega, by simp; omega,
              by simp, by simp [hdf], ?_, ?_⟩
            · intro hcon; simp at hcon
            · intro _; rfl

/-! ## Single-step unfolding lemmas for the loop -/

theorem scqLoop_step_success (env : Env) (fuel attempt : Nat) (sql : String)
    (g e : Nat) (log : List Attempt) (df : Option RowSet)
    (hat : attempt ≤ MAX_ATTEMPTS)
    (hr : run_query env.conn (env.backend e) sql = (df, none)) :
    scqLoop env (fuel + 1) attempt sql g e log
      = ⟨df, some sql, g, e + 1, attempt, ⟨sql, df, none⟩ :: log⟩ := by
  have hlt : ¬ MAX_ATTEMPTS < attempt := by omega
  simp only [scqLoop, if_neg hlt, hr]

theorem scqLoop_step_max (env : Env) (fuel attempt : Nat) (sql : String)
    (g e : Nat) (log : List Attempt) (df : Option RowSet) (err : String)
    (hat : attempt = MAX_ATTEMPTS)
    (hr : run_query env.conn (env.backend e) sql = (df, some err)) :
    scqLoop env (fuel + 1) attempt sql g e log
      = ⟨none, some sql, g, e + 1, attempt, ⟨sql, df, some err⟩ :: log⟩ := by
  have hlt : ¬ MAX_ATTEMPTS < attempt := by omega
  have hA2 : (attempt == MAX_ATTEMPTS) = true := by simp [hat]
  simp only [scqLoop, if_neg hlt, hr, hA2, if_true]

theorem scqLoop_step_cont (env : Env) (fuel attempt : Nat) (sql : String)
    (g e : Nat) (log : List Attempt) (df : Option RowSet) (err ns : String)
    (hat : attempt < MAX_ATTEMPTS)
    (hr : run_query env.conn (env.backend e) sql = (df, some err))
    (hg : generate_sql_with_gpt env g = some ns)
    (hne : ns ≠ "") (hdiff : ns ≠ sql) :
    scqLoop env (fuel + 1) attempt sql g e log
      = scqLoop env fuel (attempt + 1) ns (g + 1) (e + 1)
          (⟨sql, df, some err⟩ :: log) := by
  have hlt : ¬ MAX_ATTEMPTS < attempt := by omega
  have hA2 : (attempt == MAX_ATTEMPTS) = false := by
    simp; omega
  have hp : (ns != "" && ns != sql) = true := by
    simp [hne, hdiff]
  simp only [scqLoop, if_neg hlt, hr, hA2, Bool.false_eq_true, if_false, hg,
    hp, if_true]

theorem scqLoop_step_noprogress (env : Env) (fuel attempt : Nat)
    (sql : String) (g e : Nat) (log : List Attempt) (df : Option RowSet)
    (err ns : String)
    (hat : attempt < MAX_ATTEMPTS)
    (hr : run_query env.conn (env.backend e) sql = (df, some err))
    (hg : generate_sql_with_gpt env g = some ns)
    (hstop : ns = "" ∨ ns = sql) :
    scqLoop env (fuel + 1) attempt sql g e log
      = ⟨none, some sql, g + 1, e + 1, attempt + 1,
          ⟨sql, df, some err⟩ :: log⟩ := by
  have hlt : ¬ MAX_ATTEMPTS < attempt := by omega
  have hA2 : (attempt == MAX_ATTEMPTS) = false := by
    simp; omega
  have hp : (ns != "" && ns != sql) = false := by
    rcases hstop with h | h <;> simp [h]
  simp only [scqLoop, if_neg hlt, hr, hA2, Bool.false_eq_true, if_false, hg,
    hp]

theorem scqLoop_step_genfail (env : Env) (fuel attempt : Nat)
    (sql : String) (g e : Nat) (log : List Attempt) (df : Option RowSet)
    (err : String)
    (hat : attempt < MAX_ATTEMPTS)
    (hr : run_query env.conn (env.backend e) sql = (df, some err))
    (hg : generate_sql_with_gpt env g = none) :
    scqLoop env (fuel + 1) attempt sql g e log
      = ⟨none, some sql, g + 1, e + 1, attempt + 1,
          ⟨sql, df, some err⟩ :: log⟩ := by
  have hlt : ¬ MAX_ATTEMPTS < attempt := by omega
  have hA2 : (attempt == MAX_ATTEMPTS) = false := by
    simp; omega
  simp only [scqLoop, if_neg hlt, hr, hA2, Bool.false_eq_true, if_false, hg]

/-! ## Top-level session specification -/

theorem execute_scq_cases (env : Env) :
    (execute_self_correcting_query env = emptyOutcome ∧
      (generate_sql_with_gpt env 0 = none ∨
        generate_sql_with_gpt env 0 = some "")) ∨
    (∃ s, generate_sql_with_gpt env 0 = some s ∧ s ≠ "" ∧
      execute_self_correcting_query env
        = scqLoop env MAX_ATTEMPTS 1 s 1 0 []) := by
  unfold execute_self_correcting_query execute_scq_fuel emptyOutcome
  cases hg : generate_sql_with_gpt env 0 with
  | none => exact Or.inl ⟨rfl, Or.inl rfl⟩
  | some s =>
    by_cases hs : s = ""
    · subst hs
      exact Or.inl ⟨by simp, Or.inr rfl⟩
    · have hs2 : (s == "") = false := by simp [hs]
      refine Or.inr ⟨s, rfl, hs, ?_⟩
      simp only [hs2, Bool.false_eq_true, if_false]

theorem execute_scq_spec (env : Env) :
    (execute_self_correcting_query env = emptyOutcome ∧
      (generate_sql_with_gpt env 0 = none ∨
        generate_sql_with_gpt env 0 = some "")) ∨
    (∃ s, generate_sql_with_gpt env 0 = some s ∧ s ≠ "" ∧
      ∃ fin older,
        (execute_self_correcting_query env).attemptsRev = fin :: older ∧
        (execute_self_correcting_query env).execCalls = older.length + 1 ∧
        (execute_self_correcting_query env).finalSQL = some fin.sql ∧
        (execute_self_correcting_query env).genCalls ≤ MAX_ATTEMPTS ∧
        (execute_self_correcting_query env).lastAttempt ≤ MAX_ATTEMPTS ∧
        older.length + 1 ≤ MAX_ATTEMPTS ∧
        (∀ a ∈ older, a.error ≠ none ∧ a.rowSet = none) ∧
        fin.rowSet.isSome = fin.error.isNone ∧
        (fin.error = none →
          (execute_self_correcting_query env).rowSet = fin.rowSet ∧
          (execute_self_correcting_query env).genCalls = 1 + older.length ∧
          (execute_self_correcting_query env).lastAttempt
              = 1 + older.length) ∧
        (fin.error ≠ none →
          (execute_self_correcting_query env).rowSet = none)) := by
  rcases execute_scq_cases env with h | ⟨s, hg, hs, hloop⟩
  · exact Or.inl h
  · refine Or.inr ⟨s, hg, hs, ?_⟩
    obtain ⟨fin, older, c1, c2, c3, c4, c5, c6, c7, c8, c9, c10⟩ :=
      scqLoop_spec env MAX_ATTEMPTS 1 s 1 0 []
        (by unfold MAX_ATTEMPTS; omega) (by omega)
    rw [hloop]
    refine ⟨fin, older, by simpa using c1, by omega, c3, by omega, c5,
      by omega, c7, c8, ?_, c10⟩
    intro hfin
    obtain ⟨d1, d2, d3⟩ := c9 hfin
    exact ⟨d1, by omega, by omega⟩

/-! ## Extractor lemmas -/

theorem matchesCI_append_left :
    ∀ (pat xs ys : List Char), pat.length ≤ xs.length →
      matchesCI pat (xs ++ ys) = matchesCI pat xs := by
  intro pat
  induction pat with
  | nil => intro xs ys _; rfl
  | cons p ps ih =>
    intro xs ys h
    cases xs with
    | nil => simp at h
    | cons x xs' =>
      simp only [List.cons_append, matchesCI]
      congr 1
      exact ih xs' ys (by simp only [List.length_cons] at h; omega)

theorem splitAtClose_none_iff :
    ∀ cs : List Char,
      splitAtClose cs = none ↔ containsCloseFence cs = false := by
  intro cs
  induction cs with
  | nil => simp [splitAtClose, containsCloseFence]
  | cons c cs' ih =>
    by_cases hm : matchesCI fenceClosePat (c :: cs') = true
    · simp [splitAtClose, containsCloseFence, hm]
    · have hm' : matchesCI fenceClosePat (c :: cs') = false := by
        simpa using hm
      simp only [splitAtClose, containsCloseFence, hm', Bool.false_eq_true,
        if_false, Bool.false_or]
      rw [← ih]
      rcases h : splitAtClose cs' with _ | i <;> simp [h]

theorem findSqlFence_none_iff :
    ∀ cs : List Char, findSqlFence cs = none ↔ hasSqlFence cs = false := by
  intro cs
  induction cs with
  | nil => simp [findSqlFence, hasSqlFence]
  | cons c cs' ih =>
    by_cases hm : matchesCI fenceOpenPat (c :: cs') = true
    · simp only [findSqlFence, hasSqlFence, hm, Bool.true_and, if_true]
      rcases h : splitAtClose (cs'.drop 5) with _ | i
      · have hcc : containsCloseFence (cs'.drop 5) = false :=
          (splitAtClose_none_iff _).mp h
        simp [h, hcc, ih]
      · have hcc : containsCloseFence (cs'.drop 5) = true := by
          by_contra hx
          have hx' : containsCloseFence (cs'.drop 5) = false := by
            simpa using hx
          rw [(splitAtClose_none_iff _).mpr hx'] at h
          exact Option.noConfusion h
        simp [h, hcc]
    · have hm' : matchesCI fenceOpenPat (c :: cs') = false := by
        simpa using hm
      simp [findSqlFence, hasSqlFence, hm', ih]

theorem findSqlFence_skip :
    ∀ (pre rest : List Char),
      (∀ k, k < pre.length →
        matchesCI fenceOpenPat ((pre ++ rest).drop k) = false) →
      findSqlFence (pre ++ rest) = findSqlFence rest := by
  intro pre
  induction pre with
  | nil => intro rest _; rfl
  | cons c pre' ih =>
    intro rest h
    have h0 : matchesCI fenceOpenPat (c :: (pre' ++ rest)) = false := by
      have := h 0 (by simp)
      simpa using this
    show findSqlFence (c :: (pre' ++ rest)) = findSqlFence rest
    simp only [findSqlFence, h0, Bool.false_eq_true, if_false]
    refine ih rest (fun k hk => ?_)
    have h2 := h (k + 1) (by simp only [List.length_cons]; omega)
    rw [List.cons_append, List.drop_succ_cons] at h2
    exact h2

theorem matchesCI_fenceClose_self (post : List Char) :
    matchesCI fenceClosePat (fenceClosePat ++ post) = true := by
  simp [fenceClosePat, matchesCI]

theorem splitAtClose_exact :
    ∀ (mid post : List Char),
      (∀ k, k < mid.length →
        matchesCI fenceClosePat ((mid ++ (fenceClosePat ++ post)).drop k)
          = false) →
      splitAtClose (mid ++ (fenceClosePat ++ post)) = some mid := by
  intro mid
  induction mid with
  | nil =>
    intro post _
    show splitAtClose (backtick :: backtick :: backtick :: post) = some []
    simp [splitAtClose, matchesCI, fenceClosePat]
  | cons m mid' ih =>
    intro post h
    have h0 : matchesCI fenceClosePat
        (m :: (mid' ++ (fenceClosePat ++ post))) = false := by
      have := h 0 (by simp)
      simpa using this
    show splitAtClose (m :: (mid' ++ (fenceClosePat ++ post)))
        = some (m :: mid')
    simp only [splitAtClose, h0, Bool.false_eq_true, if_false]
    rw [ih post (fun k hk => by
      have h2 := h (k + 1) (by simp only [List.length_cons]; omega)
      rw [List.cons_append, List.drop_succ_cons] at h2
      exact h2)]

theorem findSqlFence_exact :
    ∀ (opn mid post : List Char),
      matchesCI fenceOpenPat opn = true → opn.length = 6 →
      (∀ k, k < mid.length →
        matchesCI fenceClosePat ((mid ++ (fenceClosePat ++ post)).drop k)
          = false) →
      findSqlFence (opn ++ (mid ++ (fenceClosePat ++ post))) = some mid := by
  intro opn mid post hm hlen hnoc
  cases opn with
  | nil => simp at hlen
  | cons a1 t1 =>
  cases t1 with
  | nil => simp at hlen
  | cons a2 t2 =>
  cases t2 with
  | nil => simp at hlen
  | cons a3 t3 =>
  cases t3 with
  | nil => simp at hlen
  | cons a4 t4 =>
  cases t4 with
  | nil => simp at hlen
  | cons a5 t5 =>
  cases t5 with
  | nil => simp at hlen
  | cons a6 t6 =>
  cases t6 with
  | cons a7 t7 => simp only [List.length_cons] at hlen; omega
  | nil =>
    have hm2 : matchesCI fenceOpenPat
        (a1 :: a2 :: a3 :: a4 :: a5 :: a6 ::
          (mid ++ (fenceClosePat ++ post))) = true := by
      have := matchesCI_append_left fenceOpenPat [a1, a2, a3, a4, a5, a6]
        (mid ++ (fenceClosePat ++ post)) (by simp [fenceOpenPat])
      simp only [List.cons_append, List.nil_append] at this
      rw [this]
      exact hm
    show findSqlFence (a1 :: a2 :: a3 :: a4 :: a5 :: a6 ::
        (mid ++ (fenceClosePat ++ post))) = some mid
    simp only [findSqlFence, hm2, if_true]
    rw [show (a2 :: a3 :: a4 :: a5 :: a6 ::
        (mid ++ (fenceClosePat ++ post))).drop 5
        = mid ++ (fenceClosePat ++ post) from rfl]
    rw [splitAtClose_exact mid post hnoc]

/-! ## Claims -/

/-- C5: for every input string, `extract_sql_from_response` returns the
trimmed interior of the (first matchable) fenced code block tagged as SQL,
the tag matched case-insensitively, when such a block is present; otherwise
it returns the trimmed whole input verbatim.  It never raises: the function
is total, both branches producing a string even when the fallback text is
not valid SQL. -/
theorem extract_sql_spec :
    (∀ s : String, hasSqlFence s.data = false →
      extract_sql_from_response s = String.mk (stripChars s.data)) ∧
    (∀ (s : String) (pre opn mid post : List Char),
      s.data = pre ++ (opn ++ (mid ++ (fenceClosePat ++ post))) →
      matchesCI fenceOpenPat opn = true → opn.length = 6 →
      (∀ k, k < pre.length →
        matchesCI fenceOpenPat
          ((pre ++ (opn ++ (mid ++ (fenceClosePat ++ post)))).drop k)
            = false) →
      (∀ k, k < mid.length →
        matchesCI fenceClosePat ((mid ++ (fenceClosePat ++ post)).drop k)
          = false) →
      extract_sql_from_response s = String.mk (stripChars mid)) := by
  constructor
  · intro s h
    unfold extract_sql_from_response
    rw [(findSqlFence_none_iff s.data).mpr h]
  · intro s pre opn mid post hs hm hlen hpre hmid
    unfold extract_sql_from_response
    rw [hs, findSqlFence_skip pre _ hpre,
      findSqlFence_exact opn mid post hm hlen hmid]

/-- C5 witness: a response with surrounding prose and an upper-case `SQL`
tag extracts to the trimmed fenced query; a response with no fence falls
back to the trimmed whole input. -/
theorem extract_sql_spec_witness :
    extract_sql_from_response "Answer: ```SQL\nSELECT 1;\n``` ok"
        = "SELECT 1;" ∧
    extract_sql_from_response " SELECT 2 " = "SELECT 2" := by
  constructor
  · exact (extract_sql_spec.2 "Answer: ```SQL\nSELECT 1;\n``` ok"
      "Answer: ".data "```SQL".data "\nSELECT 1;\n".data " ok".data
      (by decide) (by decide) (by decide) (by decide) (by decide)).trans
      (by decide)
  · exact (extract_sql_spec.1 " SELECT 2 " (by decide)).trans (by decide)

/-- C10: `run_query` is total at its boundary and returns exactly one of
two shapes: a row set with no error, or no row set with an error-message
string; a null connection yields the distinguished message
`DB_CONNECTION_ERROR`, and an execution exception yields that exception's
message text. -/
theorem run_query_total_shape (conn : Option Unit)
    (backend : String → Except String RowSet) (sql : String) :
    ((∃ df, run_query conn backend sql = (some df, none)) ∨
      (∃ m, run_query conn backend sql = (none, some m))) ∧
    (conn = none →
      run_query conn backend sql = (none, some "DB_CONNECTION_ERROR")) ∧
    (∀ df, conn ≠ none → backend sql = Except.ok df →
      run_query conn backend sql = (some df, none)) ∧
    (∀ m, conn ≠ none → backend sql = Except.error m →
      run_query conn backend sql = (none, some m)) := by
  cases conn with
  | none =>
    refine ⟨Or.inr ⟨"DB_CONNECTION_ERROR", rfl⟩, fun _ => rfl, ?_, ?_⟩
    · intro df hc _; exact absurd rfl hc
    · intro m hc _; exact absurd rfl hc
  | some u =>
    cases hb : backend sql with
    | ok rows =>
      refine ⟨Or.inl ⟨rows, ?_⟩, by simp, ?_, ?_⟩
      · simp [run_query, hb]
      · intro df _ hdf
        cases hdf
        simp [run_query, hb]
      · intro m _ hm
        cases hm
    | error msg =>
      refine ⟨Or.inr ⟨msg, ?_⟩, by simp, ?_, ?_⟩
      · simp [run_query, hb]
      · intro df _ hdf
        cases hdf
      · intro m _ hm
        cases hm
        simp [run_query, hb]

/-- C10 witness: the two failure shapes and the success shape at concrete
inputs. -/
theorem run_query_total_shape_witness :
    run_query none (fun _ => Except.error "boom") "SELECT 1"
        = (none, some "DB_CONNECTION_ERROR") ∧
    run_query (some ()) (fun _ => Except.error "boom") "SELECT 1"
        = (none, some "boom") ∧
    run_query (some ()) (fun _ => Except.ok [[("n", "1")]]) "SELECT 1"
        = (some [[("n", "1")]], none) := by
  refine ⟨?_, ?_, ?_⟩
  · exact (run_query_total_shape none (fun _ => Except.error "boom")
      "SELECT 1").2.1 rfl
  · exact (run_query_total_shape (some ()) (fun _ => Except.error "boom")
      "SELECT 1").2.2.2 "boom" (by simp) rfl
  · exact (run_query_total_shape (some ())
      (fun _ => Except.ok [[("n", "1")]]) "SELECT 1").2.2.1
      [[("n", "1")]] (by simp) rfl

/-- C2: every correction session terminates — giving the loop any fuel
beyond `MAX_ATTEMPTS` leaves the outcome unchanged — the reported attempt
counter never exceeds `MAX_ATTEMPTS`, and at most `MAX_ATTEMPTS` generation
calls (initial generation plus corrections) are made in total, as well as
at most `MAX_ATTEMPTS` execution calls. -/
theorem scq_bounded_generation (env : Env) :
    (execute_self_correcting_query env).genCalls ≤ MAX_ATTEMPTS ∧
    (execute_self_correcting_query env).lastAttempt ≤ MAX_ATTEMPTS ∧
    (execute_self_correcting_query env).execCalls ≤ MAX_ATTEMPTS ∧
    (∀ fuel, MAX_ATTEMPTS ≤ fuel →
      execute_scq_fuel env fuel = execute_self_correcting_query env) := by
  have hfuel : ∀ fuel, MAX_ATTEMPTS ≤ fuel →
      execute_scq_fuel env fuel = execute_self_correcting_query env := by
    intro fuel hf
    obtain ⟨k, rfl⟩ : ∃ k, fuel = MAX_ATTEMPTS + k :=
      ⟨fuel - MAX_ATTEMPTS, by omega⟩
    unfold execute_self_correcting_query execute_scq_fuel
    cases hg : generate_sql_with_gpt env 0 with
    | none => rfl
    | some s =>
      by_cases hs : (s == "") = true
      · simp only [hs, if_true]
      · have hs' : (s == "") = false := by simpa using hs
        simp only [hs', Bool.false_eq_true, if_false]
        exact scqLoop_fuel_add env k MAX_ATTEMPTS 1 s 1 0 [] (by omega)
  rcases execute_scq_spec env with ⟨h1, _⟩ |
    ⟨s, _, _, fin, older, c1, c2, c3, c4, c5, c6, c7, c8, c9, c10⟩
  · refine ⟨?_, ?_, ?_, hfuel⟩ <;> rw [h1] <;> decide
  · exact ⟨c4, c5, by omega, hfuel⟩

/-- C2 witness: at the all-failures environment the generation bound holds
and extra fuel leaves the outcome unchanged. -/
theorem scq_bounded_generation_witness :
    execute_scq_fuel envAllFail 10
        = execute_self_correcting_query envAllFail ∧
    (execute_self_correcting_query envAllFail).genCalls ≤ MAX_ATTEMPTS :=
  ⟨(scq_bounded_generation envAllFail).2.2.2 10 (by decide),
    (scq_bounded_generation envAllFail).1⟩

/-- C3: success and a result set co-occur exactly: the session returns a
non-null row set iff its most recent attempt executed without error (and
the returned rows are that attempt's rows), and the success flag recorded
by `main`'s history update is true iff the returned row set is non-null —
success is never reported without a result set and failure never comes
with one. -/
theorem scq_success_iff_result (env : Env) (history : List HistoryEntry)
    (q : String) :
    ((execute_self_correcting_query env).rowSet ≠ none ↔
      (∃ fin older,
        (execute_self_correcting_query env).attemptsRev = fin :: older ∧
        fin.error = none ∧
        (execute_self_correcting_query env).rowSet = fin.rowSet)) ∧
    (∃ entry, recordSession history q (execute_self_correcting_query env)
          = history ++ [entry] ∧
      (entry.success = true ↔
        (execute_self_correcting_query env).rowSet ≠ none)) := by
  constructor
  · rcases execute_scq_spec env with ⟨h1, _⟩ |
      ⟨s, _, _, fin, older, c1, c2, c3, c4, c5, c6, c7, c8, c9, c10⟩
    · rw [h1]
      constructor
      · intro h; exact absurd rfl h
      · rintro ⟨fin, older, hcons, _⟩
        exact absurd hcons (by simp [emptyOutcome])
    · constructor
      · intro hne
        rcases herr : fin.error with _ | m
        · exact ⟨fin, older, c1, herr, (c9 herr).1⟩
        · exact absurd (c10 (by simp [herr])) hne
      · rintro ⟨fin', older', hcons, herr, hrow⟩
        rw [c1] at hcons
        injection hcons with he1 he2
        subst he1
        have hsome : fin.rowSet.isSome = true := by rw [c8, herr]; rfl
        rw [hrow]
        intro hx
        rw [hx] at hsome
        simp at hsome
  · rcases hrow : (execute_self_correcting_query env).rowSet with _ | df
    · refine ⟨⟨q, (execute_self_correcting_query env).finalSQL, 0, false⟩,
        ?_, ?_⟩
      · unfold recordSession; rw [hrow]
      · simp [hrow]
    · refine ⟨⟨q, (execute_self_correcting_query env).finalSQL,
        df.length, true⟩, ?_, ?_⟩
      · unfold recordSession; rw [hrow]
      · simp [hrow]

/-- C3 witness: at the healthy environment the recorded entry reports
success and a non-null result set together. -/
theorem scq_success_iff_result_witness :
    ∃ entry, recordSession [] "How many customers do we have by country?"
        (execute_self_correcting_query envSuccess) = [] ++ [entry] ∧
      (entry.success = true ↔
        (execute_self_correcting_query envSuccess).rowSet ≠ none) :=
  (scq_success_iff_result envSuccess []
    "How many customers do we have by country?").2

/-- C4: if the Executor returned success on some attempt, that attempt is
the most recent one — no further generation or execution calls occurred
after it — and with k its attempt index, exactly k generation calls and k
execution calls were made (k ≤ MAX_ATTEMPTS) and the session returned that
attempt's result set together with that attempt's SQL. -/
theorem scq_early_termination_on_success (env : Env) (j : Nat) (a : Attempt)
    (hj : (execute_self_correcting_query env).attemptsRev.get? j = some a)
    (ha : a.error = none) :
    j = 0 ∧
    (execute_self_correcting_query env).attemptsRev.length
        = (execute_self_correcting_query env).execCalls ∧
    (execute_self_correcting_query env).genCalls
        = (execute_self_correcting_query env).execCalls ∧
    (execute_self_correcting_query env).lastAttempt
        = (execute_self_correcting_query env).execCalls ∧
    (execute_self_correcting_query env).execCalls ≤ MAX_ATTEMPTS ∧
    (execute_self_correcting_query env).rowSet = a.rowSet ∧
    (execute_self_correcting_query env).rowSet ≠ none ∧
    (execute_self_correcting_query env).finalSQL = some a.sql := by
  rcases execute_scq_spec env with ⟨h1, _⟩ |
    ⟨s, _, _, fin, older, c1, c2, c3, c4, c5, c6, c7, c8, c9, c10⟩
  · rw [h1] at hj
    simp [emptyOutcome] at hj
  · rw [c1] at hj
    cases j with
    | succ j' =>
      exfalso
      have hmem : a ∈ older := by
        have hg : older.get? j' = some a := by simpa using hj
        exact List.get?_mem hg
      exact (c7 a hmem).1 ha
    | zero =>
      have hfin : fin = a := by simpa using hj
      subst hfin
      obtain ⟨d1, d2, d3⟩ := c9 ha
      have hsome : fin.rowSet.isSome = true := by rw [c8, ha]; rfl
      refine ⟨rfl, ?_, by omega, by omega, by omega, d1, ?_, c3⟩
      · rw [c1, c2]; simp
      · rw [d1]
        intro hx
        rw [hx] at hsome
        simp at hsome

/-- C4 witness: at the healthy environment, success on attempt 1 gives one
generation call, one execution call and a non-null result. -/
theorem scq_early_termination_on_success_witness :
    (execute_self_correcting_query envSuccess).genCalls
        = (execute_self_correcting_query envSuccess).execCalls ∧
    (execute_self_correcting_query envSuccess).rowSet ≠ none := by
  have t := scq_early_termination_on_success envSuccess 0
    ⟨"SELECT 1", some [[("n", "42")]], none⟩ (by decide) rfl
  exact ⟨t.2.2.1, t.2.2.2.2.2.2.1⟩

/-- C8: the returned SQL is null iff generation never produced a query at
all (the initial generation call raised, or it extracted an empty string);
whenever at least one attempt's SQL was produced and executed, the session
returns that most recently attempted SQL, on success and failure alike. -/
theorem scq_last_attempted_sql (env : Env) :
    ((execute_self_correcting_query env).finalSQL = none ↔
      (generate_sql_with_gpt env 0 = none ∨
        generate_sql_with_gpt env 0 = some "")) ∧
    (∀ fin older,
      (execute_self_correcting_query env).attemptsRev = fin :: older →
      (execute_self_correcting_query env).finalSQL = some fin.sql) := by
  rcases execute_scq_spec env with ⟨h1, h2⟩ |
    ⟨s, hg, hs, fin, older, c1, c2, c3, c4, c5, c6, c7, c8, c9, c10⟩
  · constructor
    · rw [h1]; exact ⟨fun _ => h2, fun _ => rfl⟩
    · intro fin' older' hcons
      rw [h1] at hcons
      exact absurd hcons (by simp [emptyOutcome])
  · constructor
    · rw [c3]
      constructor
      · intro hx; exact Option.noConfusion hx
      · rintro (hx | hx)
        · rw [hg] at hx; exact Option.noConfusion hx
        · rw [hg] at hx
          injection hx with hx'
          exact absurd hx' hs
    · intro fin' older' hcons
      rw [c1] at hcons
      injection hcons with he1 he2
      rw [c3, he1]

/-- C8 witness: at the all-failures environment the returned SQL is the
SQL of the third (most recent) attempt. -/
theorem scq_last_attempted_sql_witness :
    (execute_self_correcting_query envAllFail).finalSQL = some "qqq" := by
  have t := (scq_last_attempted_sql envAllFail).2
    ⟨"qqq", none, some "eee"⟩
    [⟨"qq", none, some "ee"⟩, ⟨"q", none, some "e"⟩]
    (by decide)
  exact t

/-- C1 counterexample: with the backend connection down from the start
(`envConnDown.conn = none`) the session performs 3 generation calls and 3
execution calls, not exactly 1 and 1: the code has no immediate,
non-correctable termination on a connection failure. -/
theorem connection_error_retried_cex :
    envConnDown.conn = none ∧
    (execute_self_correcting_query envConnDown).rowSet = none ∧
    (execute_self_correcting_query envConnDown).genCalls = 3 ∧
    (execute_self_correcting_query envConnDown).execCalls = 3 ∧
    ¬ ((execute_self_correcting_query envConnDown).genCalls = 1 ∧
        (execute_self_correcting_query envConnDown).execCalls = 1) := by
  refine ⟨rfl, ?_, ?_, ?_, ?_⟩ <;> decide

/-- C1 (amended): `run_query` reports an unavailable connection as the
distinguished error string `DB_CONNECTION_ERROR`, but the Controller does
not treat it as non-correctable: it increments the attempt counter and
invokes the Generator again with that string as correction feedback, like
any query error.  The session still fails with (no result, last attempted
SQL); with the backend down from the start and distinct non-empty
corrections, exactly 3 generation calls and 3 execution calls occur. -/
theorem connection_error_treated_as_query_error (env : Env)
    (s0 s1 s2 : String) (hc : env.conn = none)
    (h0 : generate_sql_with_gpt env 0 = some s0) (h0n : s0 ≠ "")
    (h1 : generate_sql_with_gpt env 1 = some s1) (h1n : s1 ≠ "")
    (h1d : s1 ≠ s0)
    (h2 : generate_sql_with_gpt env 2 = some s2) (h2n : s2 ≠ "")
    (h2d : s2 ≠ s1) :
    (execute_self_correcting_query env).rowSet = none ∧
    (execute_self_correcting_query env).finalSQL = some s2 ∧
    (execute_self_correcting_query env).genCalls = 3 ∧
    (execute_self_correcting_query env).execCalls = 3 ∧
    (execute_self_correcting_query env).attemptsRev
      = [⟨s2, none, some "DB_CONNECTION_ERROR"⟩,
         ⟨s1, none, some "DB_CONNECTION_ERROR"⟩,
         ⟨s0, none, some "DB_CONNECTION_ERROR"⟩] := by
  have hr : ∀ (e : Nat) (sql : String),
      run_query env.conn (env.backend e) sql
        = (none, some "DB_CONNECTION_ERROR") := by
    intro e sql; rw [hc]; rfl
  have hrun : execute_self_correcting_query env
      = scqLoop env 3 1 s0 1 0 [] := by
    unfold execute_self_correcting_query execute_scq_fuel
    rw [h0]
    have hs' : (s0 == "") = false := by simpa using h0n
    simp only [hs', Bool.false_eq_true, if_false]
    rfl
  have e1 : scqLoop env 3 1 s0 1 0 []
      = scqLoop env 2 2 s1 2 1 [⟨s0, none, some "DB_CONNECTION_ERROR"⟩] :=
    scqLoop_step_cont env 2 1 s0 1 0 [] none "DB_CONNECTION_ERROR" s1
      (by decide) (hr 0 s0) h1 h1n h1d
  have e2 : scqLoop env 2 2 s1 2 1 [⟨s0, none, some "DB_CONNECTION_ERROR"⟩]
      = scqLoop env 1 3 s2 3 2
          [⟨s1, none, some "DB_CONNECTION_ERROR"⟩,
           ⟨s0, none, some "DB_CONNECTION_ERROR"⟩] :=
    scqLoop_step_cont env 1 2 s1 2 1 _ none "DB_CONNECTION_ERROR" s2
      (by decide) (hr 1 s1) h2 h2n h2d
  have e3 : scqLoop env 1 3 s2 3 2
        [⟨s1, none, some "DB_CONNECTION_ERROR"⟩,
         ⟨s0, none, some "DB_CONNECTION_ERROR"⟩]
      = ⟨none, some s2, 3, 3, 3,
          [⟨s2, none, some "DB_CONNECTION_ERROR"⟩,
           ⟨s1, none, some "DB_CONNECTION_ERROR"⟩,
           ⟨s0, none, some "DB_CONNECTION_ERROR"⟩]⟩ :=
    scqLoop_step_max env 0 3 s2 3 2 _ none "DB_CONNECTION_ERROR" rfl (hr 2 s2)
  rw [hrun, e1, e2, e3]
  exact ⟨rfl, rfl, rfl, rfl, rfl⟩

/-- C1 amended witness: the concrete connection-down environment with
corrections `q`, `qq`, `qqq`. -/
theorem connection_error_treated_as_query_error_witness :
    (execute_self_correcting_query envConnDown).finalSQL = some "qqq" ∧
    (execute_self_correcting_query envConnDown).execCalls = 3 := by
  have t := connection_error_treated_as_query_error envConnDown
    "q" "qq" "qqq" rfl (by decide) (by decide) (by decide) (by decide)
    (by decide) (by decide) (by decide) (by decide)
  exact ⟨t.2.1, t.2.2.2.1⟩

/-- C6: if a correction yields an empty candidate, or one textually
identical to the current SQL, the loop terminates at once with
(no result, current SQL): that generation call is the last one and no
further execution occurs.  In particular, when the second correction
repeats the first correction's SQL, the session ends with 3 generation
calls and only 2 execution calls — no further correction is attempted. -/
theorem scq_no_progress_termination :
    (∀ (env : Env) (fuel attempt : Nat) (sql : String) (g e : Nat)
        (log : List Attempt) (df : Option RowSet) (err ns : String),
      attempt < MAX_ATTEMPTS →
      run_query env.conn (env.backend e) sql = (df, some err) →
      generate_sql_with_gpt env g = some ns →
      (ns = "" ∨ ns = sql) →
      scqLoop env (fuel + 1) attempt sql g e log
        = ⟨none, some sql, g + 1, e + 1, attempt + 1,
            ⟨sql, df, some err⟩ :: log⟩) ∧
    (∀ (env : Env) (s0 s1 : String),
      env.conn = some () →
      (∀ k s, ∃ m, env.backend k s = Except.error m) →
      generate_sql_with_gpt env 0 = some s0 → s0 ≠ "" →
      generate_sql_with_gpt env 1 = some s1 → s1 ≠ "" → s1 ≠ s0 →
      generate_sql_with_gpt env 2 = some s1 →
      (execute_self_correcting_query env).rowSet = none ∧
      (execute_self_correcting_query env).finalSQL = some s1 ∧
      (execute_self_correcting_query env).genCalls = 3 ∧
      (execute_self_correcting_query env).execCalls = 2) := by
  constructor
  · intro env fuel attempt sql g e log df err ns hat hr hg hstop
    exact scqLoop_step_noprogress env fuel attempt sql g e log df err ns
      hat hr hg hstop
  · intro env s0 s1 hc hb h0 h0n h1 h1n h1d h2
    obtain ⟨m0, hm0⟩ := hb 0 s0
    obtain ⟨m1, hm1⟩ := hb 1 s1
    have hr0 : run_query env.conn (env.backend 0) s0 = (none, some m0) := by
      rw [hc]; simp [run_query, hm0]
    have hr1 : run_query env.conn (env.backend 1) s1 = (none, some m1) := by
      rw [hc]; simp [run_query, hm1]
    have hrun : execute_self_correcting_query env
        = scqLoop env 3 1 s0 1 0 [] := by
      unfold execute_self_correcting_query execute_scq_fuel
      rw [h0]
      have hs' : (s0 == "") = false := by simpa using h0n
      simp only [hs', Bool.false_eq_true, if_false]
      rfl
    have e1 : scqLoop env 3 1 s0 1 0 []
        = scqLoop env 2 2 s1 2 1 [⟨s0, none, some m0⟩] :=
      scqLoop_step_cont env 2 1 s0 1 0 [] none m0 s1
        (by decide) hr0 h1 h1n h1d
    have e2 : scqLoop env 2 2 s1 2 1 [⟨s0, none, some m0⟩]
        = ⟨none, some s1, 3, 2, 3,
            [⟨s1, none, some m1⟩, ⟨s0, none, some m0⟩]⟩ :=
      scqLoop_step_noprogress env 1 2 s1 2 1 _ none m1 s1
        (by decide) hr1 h2 (Or.inr rfl)
    rw [hrun, e1, e2]
    exact ⟨rfl, rfl, rfl, rfl⟩

/-- C6 witness: the stuck environment, whose second correction repeats the
first. -/
theorem scq_no_progress_termination_witness :
    (execute_self_correcting_query envStuck).genCalls = 3 ∧
    (execute_self_correcting_query envStuck).execCalls = 2 := by
  have t := scq_no_progress_termination.2 envStuck "q" "qq" rfl
    (fun k s => ⟨"err", rfl⟩) (by decide) (by decide) (by decide)
    (by decide) (by decide) (by decide)
  exact ⟨t.2.2.1, t.2.2.2⟩

/-- C7: when the Executor fails with a query error on all
`MAX_ATTEMPTS = 3` attempts and each correction produces a distinct
non-empty query, the session fails with a null row set, the final SQL is
the attempt-3 SQL (the last attempted execution), and exactly 3 generation
calls and 3 execution calls were made. -/
theorem scq_exhaustion_after_three_failures (env : Env)
    (s0 s1 s2 : String) (hc : env.conn = some ())
    (hb : ∀ k s, ∃ m, env.backend k s = Except.error m)
    (h0 : generate_sql_with_gpt env 0 = some s0) (h0n : s0 ≠ "")
    (h1 : generate_sql_with_gpt env 1 = some s1) (h1n : s1 ≠ "")
    (h1d : s1 ≠ s0)
    (h2 : generate_sql_with_gpt env 2 = some s2) (h2n : s2 ≠ "")
    (h2d : s2 ≠ s1) :
    (execute_self_correcting_query env).rowSet = none ∧
    (execute_self_correcting_query env).finalSQL = some s2 ∧
    (execute_self_correcting_query env).genCalls = 3 ∧
    (execute_self_correcting_query env).execCalls = 3 ∧
    (execute_self_correcting_query env).lastAttempt = 3 := by
  obtain ⟨m0, hm0⟩ := hb 0 s0
  obtain ⟨m1, hm1⟩ := hb 1 s1
  obtain ⟨m2, hm2⟩ := hb 2 s2
  have hr0 : run_query env.conn (env.backend 0) s0 = (none, some m0) := by
    rw [hc]; simp [run_query, hm0]
  have hr1 : run_query env.conn (env.backend 1) s1 = (none, some m1) := by
    rw [hc]; simp [run_query, hm1]
  have hr2 : run_query env.conn (env.backend 2) s2 = (none, some m2) := by
    rw [hc]; simp [run_query, hm2]
  have hrun : execute_self_correcting_query env
      = scqLoop env 3 1 s0 1 0 [] := by
    unfold execute_self_correcting_query execute_scq_fuel
    rw [h0]
    have hs' : (s0 == "") = false := by simpa using h0n
    simp only [hs', Bool.false_eq_true, if_false]
    rfl
  have e1 : scqLoop env 3 1 s0 1 0 []
      = scqLoop env 2 2 s1 2 1 [⟨s0, none, some m0⟩] :=
    scqLoop_step_cont env 2 1 s0 1 0 [] none m0 s1
      (by decide) hr0 h1 h1n h1d
  have e2 : scqLoop env 2 2 s1 2 1 [⟨s0, none, some m0⟩]
      = scqLoop env 1 3 s2 3 2 [⟨s1, none, some m1⟩, ⟨s0, none, some m0⟩] :=
    scqLoop_step_cont env 1 2 s1 2 1 _ none m1 s2
      (by decide) hr1 h2 h2n h2d
  have e3 : scqLoop env 1 3 s2 3 2 [⟨s1, none, some m1⟩, ⟨s0, none, some m0⟩]
      = ⟨none, some s2, 3, 3, 3,
          [⟨s2, none, some m2⟩, ⟨s1, none, some m1⟩,
           ⟨s0, none, some m0⟩]⟩ :=
    scqLoop_step_max env 0 3 s2 3 2 _ none m2 rfl hr2
  rw [hrun, e1, e2, e3]
  exact ⟨rfl, rfl, rfl, rfl, rfl⟩

/-- C7 witness: the all-failures environment with corrections `q`, `qq`,
`qqq` and errors `e`, `ee`, `eee`. -/
theorem scq_exhaustion_after_three_failures_witness :
    (execute_self_correcting_query envAllFail).finalSQL = some "qqq" ∧
    (execute_self_correcting_query envAllFail).genCalls = 3 ∧
    (execute_self_correcting_query envAllFail).execCalls = 3 := by
  have t := scq_exhaustion_after_three_failures envAllFail "q" "qq" "qqq"
    rfl (fun k s => ⟨String.mk (List.replicate (k + 1) 'e'), rfl⟩)
    (by decide) (by decide) (by decide) (by decide) (by decide)
    (by decide) (by decide) (by decide)
  exact ⟨t.2.1, t.2.2.1, t.2.2.2.1⟩

/-- C9 counterexample: the stored query history is not bounded — after six
terminated sessions the stored list holds six entries, which exceeds the
five-entry bound the UI renders. -/
theorem history_unbounded_cex :
    (histAfter 6).length = 6 ∧ ¬ (histAfter 6).length ≤ 5 ∧
    (displayedHistory (histAfter 6)).length = 5 := by
  refine ⟨?_, ?_, ?_⟩ <;> decide

/-- C9 (amended): the stored `query_history` list grows by exactly one
entry per terminated session, without bound; only the rendered history is
bounded — the UI displays at most the five most recent entries. -/
theorem history_display_bounded (history : List HistoryEntry) (q : String)
    (o : Outcome) :
    (recordSession history q o).length = history.length + 1 ∧
    (displayedHistory (recordSession history q o)).length ≤ 5 ∧
    (displayedHistory history).length ≤ 5 := by
  have hlen : ∀ h : List HistoryEntry, (displayedHistory h).length ≤ 5 := by
    intro h
    simp only [displayedHistory, lastN, List.length_reverse,
      List.length_drop]
    omega
  refine ⟨?_, hlen _, hlen _⟩
  rcases hrow : o.rowSet with _ | df <;> simp [recordSession, hrow]

end SQLAssistant
